import Mathlib

/-!
Verification of the `telemetry_channel` core (src/src/index.ts): a wrapper
around a phase-keyed tracing bus (`node:diagnostics_channel`'s
`tracingChannel`) that injects monotonic timing fields into a mutable
context object threaded through the phase events of one invocation.

Shallow embedding notes:
* A JS context object is modelled as a finite map `String → Option (JSVal V)`;
  in-place mutation becomes state threading, so "same object instance across
  phases" is expressed by one context state flowing through the run.
* `process.hrtime.bigint()` is modelled by two explicit clock readings
  `t0 t1 : Int` (the first and second read of the run); monotonicity of the
  clock (`t0 ≤ t1`, or strictness `t0 < t1`) is a hypothesis where needed.
* The traced user function is modelled as `fn : T → List A → Except V V`
  (JS can throw any value, so errors are also of type `V`); the bus's
  behaviour (publish start, invoke, attach result, or attach error and
  publish error, always publish end, rethrow) follows Node's
  `TracingChannel.traceSync`.
* A start subscriber may mutate the live context; it is modelled by a
  function `onStart : Ctx V → Ctx V` applied between the start publish and
  the invocation of the traced function.
-/

/-- A JavaScript value stored in a context object: a bigint (timing fields),
an arbitrary other value, or the TypeError that a bigint subtraction against
a non-bigint would throw. -/
inductive JSVal (V : Type) where
  | big : Int → JSVal V
  | val : V → JSVal V
  | tyErr : JSVal V
deriving DecidableEq

/-- A JS context object: a mapping from string keys to values. -/
def Ctx (V : Type) := String → Option (JSVal V)

/-- Property assignment `c[k] = v` on a JS object. -/
def setKey {V : Type} (k : String) (v : JSVal V) (c : Ctx V) : Ctx V :=
  fun k2 => if k2 = k then some v else c k2

/-- The empty object `{}`, the default context. -/
def emptyCtx {V : Type} : Ctx V := fun _ => none

/-- The reserved context keys of the data model: the three timing fields
injected by the instrumentor plus the `result`/`error` fields attached by
the bus. -/
def reservedKeys : List String :=
  ["startMonotonicTime", "endMonotonicTime", "duration", "result", "error"]

/-- The wrapper's start stamp:
`Object.assign(context ?? {}, { startMonotonicTime: process.hrtime.bigint() })`,
with `t0` the clock reading. It overwrites only the key
`startMonotonicTime`. -/
def stampStart {V : Type} (t0 : Int) (c : Ctx V) : Ctx V :=
  setKey "startMonotonicTime" (.big t0) c

/-- The `finally` block of `trackedFn`:
`newContext.endMonotonicTime = process.hrtime.bigint();`
`newContext.duration = newContext.endMonotonicTime - newContext.startMonotonicTime;`
with `t1` the clock reading. Both operands of the subtraction are read back
from the object; if `startMonotonicTime` is not a bigint at that point the
subtraction throws a TypeError (flag `true` in the result), after
`endMonotonicTime` has already been set. -/
def stampCompletion {V : Type} (t1 : Int) (c : Ctx V) : Ctx V × Bool :=
  let c1 := setKey "endMonotonicTime" (.big t1) c
  match c1 "startMonotonicTime" with
  | some (.big s) => (setKey "duration" (.big (t1 - s)) c1, false)
  | _ => (c1, true)

/-- A thrown value: either the user function's thrown value, or the
TypeError surfaced from the completion stamp. -/
inductive Thrown (V : Type) where
  | user : V → Thrown V
  | typeError : Thrown V
deriving DecidableEq

/-- How a thrown value is stored under the `error` key of the context. -/
def Thrown.toJSVal {V : Type} : Thrown V → JSVal V
  | .user e => .val e
  | .typeError => .tyErr

/-- The observable record of one `traceSync` invocation:
the context state published with each phase event, the value returned or
error propagated to the caller, the list of `(receiver, args)` applications
of the traced function, and how many times the completion hook ran. -/
structure RunResult (V T A : Type) where
  startCtx : Ctx V
  errorCtx : Option (Ctx V)
  endCtx : Ctx V
  outcome : Except (Thrown V) V
  calls : List (T × List A)
  stamps : Nat

/-- `TelemetryChannel.traceSync(fn, context, thisArg, ...args)` combined with
the bus's `TracingChannel.traceSync` semantics:

1. wrapper: `Object.assign(context ?? {}, { startMonotonicTime: t0 })`;
2. bus: publish the start event with the live context; start subscribers may
   mutate it (`onStart`);
3. bus: invoke `trackedFn(thisArg, ...args)`, which applies `fn` to
   `thisArg` and `args` and, in a `finally`, stamps `endMonotonicTime := t1`
   and `duration := endMonotonicTime - startMonotonicTime`;
4. bus: on success set `context.result` and publish end; on a throw set
   `context.error`, publish error, publish end, and rethrow the original
   error to the caller. -/
def traceSync {V T A : Type} (t0 t1 : Int)
    (fn : T → List A → Except V V)
    (context : Option (Ctx V)) (thisArg : T) (args : List A)
    (onStart : Ctx V → Ctx V) : RunResult V T A :=
  let c1 := stampStart t0 (context.getD emptyCtx)
  let c2 := onStart c1
  let fnRes := fn thisArg args
  let stamped := stampCompletion t1 c2
  let tracked : Except (Thrown V) V :=
    if stamped.2 then .error .typeError
    else match fnRes with
      | .ok v => .ok v
      | .error e => .error (.user e)
  match tracked with
  | .ok v =>
      let c4 := setKey "result" (.val v) stamped.1
      ⟨c1, none, c4, .ok v, [(thisArg, args)], 1⟩
  | .error e =>
      let c4 := setKey "error" e.toJSVal stamped.1
      ⟨c1, some c4, c4, .error e, [(thisArg, args)], 1⟩

/-- A start subscriber preserves the `startMonotonicTime` key (the spec
reserves the timing keys: callers and subscribers must not reuse them). -/
def PreservesStart {V : Type} (onStart : Ctx V → Ctx V) : Prop :=
  ∀ c : Ctx V, onStart c "startMonotonicTime" = c "startMonotonicTime"

theorem preservesStart_id {V : Type} : PreservesStart (V := V) id :=
  fun _ => rfl

/-- Under a start subscriber that preserves `startMonotonicTime`, the
completion stamp never throws and the run takes the expected branch. -/
theorem stampCompletion_of_preserves {V : Type} (t0 t1 : Int)
    (onStart : Ctx V → Ctx V) (hs : PreservesStart onStart) (c : Ctx V) :
    stampCompletion t1 (onStart (stampStart t0 c)) =
      (setKey "duration" (.big (t1 - t0))
        (setKey "endMonotonicTime" (.big t1) (onStart (stampStart t0 c))), false) := by
  have h1 : (setKey "endMonotonicTime" (.big t1) (onStart (stampStart t0 c)))
      "startMonotonicTime" = some (.big t0) := by
    have h2 := hs (stampStart t0 c)
    simp [setKey, stampStart] at h2 ⊢
    simp [h2]
  simp [stampCompletion, h1]

/-- Shape of a run whose traced function returns normally, under a start
subscriber that preserves `startMonotonicTime`. -/
theorem traceSync_ok_eq {V T A : Type} (t0 t1 : Int)
    (fn : T → List A → Except V V) (context : Option (Ctx V))
    (thisArg : T) (args : List A) (onStart : Ctx V → Ctx V)
    (hs : PreservesStart onStart) (v : V) (hfn : fn thisArg args = .ok v) :
    traceSync t0 t1 fn context thisArg args onStart =
      ⟨stampStart t0 (context.getD emptyCtx), none,
        setKey "result" (.val v) (setKey "duration" (.big (t1 - t0))
          (setKey "endMonotonicTime" (.big t1)
            (onStart (stampStart t0 (context.getD emptyCtx))))),
        .ok v, [(thisArg, args)], 1⟩ := by
  simp only [traceSync]
  rw [stampCompletion_of_preserves t0 t1 onStart hs, hfn]
  simp

/-- Shape of a run whose traced function throws, under a start subscriber
that preserves `startMonotonicTime`. -/
theorem traceSync_error_eq {V T A : Type} (t0 t1 : Int)
    (fn : T → List A → Except V V) (context : Option (Ctx V))
    (thisArg : T) (args : List A) (onStart : Ctx V → Ctx V)
    (hs : PreservesStart onStart) (e : V) (hfn : fn thisArg args = .error e) :
    traceSync t0 t1 fn context thisArg args onStart =
      ⟨stampStart t0 (context.getD emptyCtx),
        some (setKey "error" (.val e) (setKey "duration" (.big (t1 - t0))
          (setKey "endMonotonicTime" (.big t1)
            (onStart (stampStart t0 (context.getD emptyCtx)))))),
        setKey "error" (.val e) (setKey "duration" (.big (t1 - t0))
          (setKey "endMonotonicTime" (.big t1)
            (onStart (stampStart t0 (context.getD emptyCtx))))),
        .error (.user e), [(thisArg, args)], 1⟩ := by
  simp only [traceSync]
  rw [stampCompletion_of_preserves t0 t1 onStart hs, hfn]
  simp [Thrown.toJSVal]

theorem setKey_same {V : Type} (k : String) (v : JSVal V) (c : Ctx V) :
    setKey k v c k = some v := by
  simp [setKey]

theorem setKey_other {V : Type} (k k2 : String) (v : JSVal V) (c : Ctx V)
    (h : k2 ≠ k) : setKey k v c k2 = c k2 := by
  simp [setKey, h]

/-- C1: on every exit path of `traceSync` — normal return or throw — the
completion hook runs exactly once, and the context published with the end
event (and with the error event when one fires) carries
`endMonotonicTime = t1` and `duration = t1 - t0 = endMonotonicTime -
startMonotonicTime` exactly, non-negative whenever the monotonic clock is
non-decreasing (`t0 ≤ t1`). -/
theorem traceSync_completion_hook {V T A : Type} (t0 t1 : Int)
    (fn : T → List A → Except V V) (context : Option (Ctx V))
    (thisArg : T) (args : List A) (onStart : Ctx V → Ctx V)
    (hs : PreservesStart onStart) (hmono : t0 ≤ t1) :
    (traceSync t0 t1 fn context thisArg args onStart).stamps = 1 ∧
    (traceSync t0 t1 fn context thisArg args onStart).endCtx "endMonotonicTime"
      = some (.big t1) ∧
    (traceSync t0 t1 fn context thisArg args onStart).endCtx "duration"
      = some (.big (t1 - t0)) ∧
    (∀ ec, (traceSync t0 t1 fn context thisArg args onStart).errorCtx = some ec →
      ec "endMonotonicTime" = some (.big t1) ∧ ec "duration" = some (.big (t1 - t0))) ∧
    0 ≤ t1 - t0 := by
  cases hfn : fn thisArg args with
  | ok v =>
      rw [traceSync_ok_eq t0 t1 fn context thisArg args onStart hs v hfn]
      refine ⟨rfl, by simp [setKey], by simp [setKey], by simp, by omega⟩
  | error e =>
      rw [traceSync_error_eq t0 t1 fn context thisArg args onStart hs e hfn]
      refine ⟨rfl, by simp [setKey], by simp [setKey], ?_, by omega⟩
      intro ec hec
      cases hec
      exact ⟨by simp [setKey], by simp [setKey]⟩

theorem traceSync_completion_hook_witness :
    (traceSync (V := Nat) (T := Nat) (A := Nat) 0 1
      (fun _ _ => Except.ok 7) none 0 [] id).stamps = 1 ∧
    (traceSync (V := Nat) (T := Nat) (A := Nat) 0 1
      (fun _ _ => Except.ok 7) none 0 [] id).endCtx "endMonotonicTime"
      = some (.big 1) ∧
    (traceSync (V := Nat) (T := Nat) (A := Nat) 0 1
      (fun _ _ => Except.ok 7) none 0 [] id).endCtx "duration"
      = some (.big (1 - 0)) ∧
    (∀ ec, (traceSync (V := Nat) (T := Nat) (A := Nat) 0 1
      (fun _ _ => Except.ok 7) none 0 [] id).errorCtx = some ec →
      ec "endMonotonicTime" = some (.big 1) ∧ ec "duration" = some (.big (1 - 0))) ∧
    (0 : Int) ≤ 1 - 0 :=
  traceSync_completion_hook 0 1 (fun _ _ => Except.ok 7) none 0 [] id
    (fun _ => rfl) (by decide)

/-- C2: when the traced function throws, `traceSync` re-raises exactly the
thrown value to the caller (it is never swallowed), and the error event
fires with that value under `error`, carrying the already-stamped timing
fields; the end event sees the same context. -/
theorem traceSync_error_propagation {V T A : Type} (t0 t1 : Int)
    (fn : T → List A → Except V V) (context : Option (Ctx V))
    (thisArg : T) (args : List A) (onStart : Ctx V → Ctx V) (e : V)
    (hs : PreservesStart onStart) (hfn : fn thisArg args = .error e) :
    (traceSync t0 t1 fn context thisArg args onStart).outcome = .error (.user e) ∧
    ∃ ec, (traceSync t0 t1 fn context thisArg args onStart).errorCtx = some ec ∧
      (traceSync t0 t1 fn context thisArg args onStart).endCtx = ec ∧
      ec "error" = some (.val e) ∧
      ec "endMonotonicTime" = some (.big t1) ∧
      ec "duration" = some (.big (t1 - t0)) := by
  rw [traceSync_error_eq t0 t1 fn context thisArg args onStart hs e hfn]
  exact ⟨rfl, _, rfl, rfl, by simp [setKey], by simp [setKey], by simp [setKey]⟩

theorem traceSync_error_propagation_witness :
    (traceSync (V := Nat) (T := Nat) (A := Nat) 0 1
      (fun _ _ => Except.error 3) none 0 [] id).outcome = .error (.user 3) ∧
    ∃ ec, (traceSync (V := Nat) (T := Nat) (A := Nat) 0 1
      (fun _ _ => Except.error 3) none 0 [] id).errorCtx = some ec ∧
      (traceSync (V := Nat) (T := Nat) (A := Nat) 0 1
        (fun _ _ => Except.error 3) none 0 [] id).endCtx = ec ∧
      ec "error" = some (.val 3) ∧
      ec "endMonotonicTime" = some (.big 1) ∧
      ec "duration" = some (.big (1 - 0)) :=
  traceSync_error_propagation 0 1 (fun _ _ => Except.error 3) none 0 [] id 3
    (fun _ => rfl) rfl

/-- C3: `traceSync` applies the traced function exactly once, to the given
receiver and argument list, and returns its value when it returns
normally. -/
theorem traceSync_invokes_fn_once {V T A : Type} (t0 t1 : Int)
    (fn : T → List A → Except V V) (context : Option (Ctx V))
    (thisArg : T) (args : List A) (onStart : Ctx V → Ctx V)
    (hs : PreservesStart onStart) :
    (traceSync t0 t1 fn context thisArg args onStart).calls = [(thisArg, args)] ∧
    ∀ v, fn thisArg args = .ok v →
      (traceSync t0 t1 fn context thisArg args onStart).outcome = .ok v := by
  constructor
  · cases hfn : fn thisArg args with
    | ok v => rw [traceSync_ok_eq t0 t1 fn context thisArg args onStart hs v hfn]
    | error e => rw [traceSync_error_eq t0 t1 fn context thisArg args onStart hs e hfn]
  · intro v hfn
    rw [traceSync_ok_eq t0 t1 fn context thisArg args onStart hs v hfn]

theorem traceSync_invokes_fn_once_witness :
    (traceSync (V := Nat) (T := Nat) (A := Nat) 0 1
      (fun _ _ => Except.ok 7) none 5 [2]
      id).calls = [(5, [2])] ∧
    ∀ v, (fun (_ : Nat) (_ : List Nat) => (Except.ok 7 : Except Nat Nat)) 5 [2] = .ok v →
      (traceSync (V := Nat) (T := Nat) (A := Nat) 0 1
        (fun _ _ => Except.ok 7) none 5 [2] id).outcome = .ok v :=
  traceSync_invokes_fn_once 0 1 (fun _ _ => Except.ok 7) none 5 [2] id
    (fun _ => rfl)

/-- C4: the context is threaded as one state through every phase of an
invocation, so a non-reserved field set on the live context by a start
subscriber is visible, unmodified, on the context delivered to the end
event, and to the error event when one fires. -/
theorem traceSync_start_subscriber_field_visible {V T A : Type} (t0 t1 : Int)
    (fn : T → List A → Except V V) (context : Option (Ctx V))
    (thisArg : T) (args : List A) (k : String) (v : JSVal V)
    (hk : k ∉ reservedKeys) :
    (traceSync t0 t1 fn context thisArg args (setKey k v)).endCtx k = some v ∧
    ∀ ec, (traceSync t0 t1 fn context thisArg args (setKey k v)).errorCtx = some ec →
      ec k = some v := by
  simp only [reservedKeys, List.mem_cons, List.mem_singleton, not_or] at hk
  obtain ⟨hk1, hk2, hk3, hk4, hk5, -⟩ := hk
  have hs : PreservesStart (setKey k v) := by
    intro c
    exact setKey_other k "startMonotonicTime" v c fun h => hk1 h.symm
  cases hfn : fn thisArg args with
  | ok w =>
      rw [traceSync_ok_eq t0 t1 fn context thisArg args (setKey k v) hs w hfn]
      refine ⟨?_, by simp⟩
      dsimp only
      rw [setKey_other "result" k _ _ hk4, setKey_other "duration" k _ _ hk3,
        setKey_other "endMonotonicTime" k _ _ hk2, setKey_same]
  | error e =>
      rw [traceSync_error_eq t0 t1 fn context thisArg args (setKey k v) hs e hfn]
      have hval : setKey "error" (JSVal.val e) (setKey "duration" (.big (t1 - t0))
          (setKey "endMonotonicTime" (.big t1)
            (setKey k v (stampStart t0 (context.getD emptyCtx))))) k = some v := by
        rw [setKey_other "error" k _ _ hk5, setKey_other "duration" k _ _ hk3,
          setKey_other "endMonotonicTime" k _ _ hk2, setKey_same]
      refine ⟨hval, ?_⟩
      intro ec hec
      cases hec
      exact hval

theorem traceSync_start_subscriber_field_visible_witness :
    ("id" ∉ reservedKeys) ∧
    ((traceSync (V := Nat) (T := Nat) (A := Nat) 0 1
      (fun _ _ => Except.ok 7) none 0 [] (setKey "id" (.val 9))).endCtx "id"
        = some (.val 9) ∧
    ∀ ec, (traceSync (V := Nat) (T := Nat) (A := Nat) 0 1
      (fun _ _ => Except.ok 7) none 0 []
        (setKey "id" (.val 9))).errorCtx = some ec → ec "id" = some (.val 9)) :=
  ⟨by decide,
    traceSync_start_subscriber_field_visible 0 1 (fun _ _ => Except.ok 7) none 0 []
      "id" (.val 9) (by decide)⟩

/-- C5: every non-reserved caller-supplied key keeps its original value in
the context delivered to the start, end and error events; moreover the
instrumentation layer itself (the start stamp and the completion hook)
writes only the keys `startMonotonicTime`, `endMonotonicTime` and
`duration` — in particular it never attaches `result` or `error`. -/
theorem traceSync_additive_merge {V T A : Type} (t0 t1 : Int)
    (fn : T → List A → Except V V) (c : Ctx V)
    (thisArg : T) (args : List A) (k : String) (hk : k ∉ reservedKeys) :
    ((traceSync t0 t1 fn (some c) thisArg args id).startCtx k = c k ∧
     (traceSync t0 t1 fn (some c) thisArg args id).endCtx k = c k ∧
     ∀ ec, (traceSync t0 t1 fn (some c) thisArg args id).errorCtx = some ec →
       ec k = c k) ∧
    (∀ (c2 : Ctx V) (k2 : String), k2 ≠ "startMonotonicTime" →
      stampStart t0 c2 k2 = c2 k2) ∧
    (∀ (c2 : Ctx V) (k2 : String), k2 ≠ "endMonotonicTime" → k2 ≠ "duration" →
      (stampCompletion t1 c2).1 k2 = c2 k2) := by
  simp only [reservedKeys, List.mem_cons, List.mem_singleton, not_or] at hk
  obtain ⟨hk1, hk2, hk3, hk4, hk5, -⟩ := hk
  have hcaller : ∀ c2 : Ctx V,
      setKey "duration" (JSVal.big (t1 - t0))
        (setKey "endMonotonicTime" (.big t1) (id (stampStart t0 c2))) k = c2 k := by
    intro c2
    rw [setKey_other "duration" k _ _ hk3, setKey_other "endMonotonicTime" k _ _ hk2]
    exact setKey_other "startMonotonicTime" k _ _ hk1
  refine ⟨?_, ?_, ?_⟩
  · cases hfn : fn thisArg args with
    | ok w =>
        rw [traceSync_ok_eq t0 t1 fn (some c) thisArg args id (fun _ => rfl) w hfn]
        refine ⟨setKey_other "startMonotonicTime" k _ _ hk1, ?_, by simp⟩
        dsimp only
        rw [setKey_other "result" k _ _ hk4]
        exact hcaller c
    | error e =>
        rw [traceSync_error_eq t0 t1 fn (some c) thisArg args id (fun _ => rfl) e hfn]
        have hval : setKey "error" (JSVal.val e) (setKey "duration" (.big (t1 - t0))
            (setKey "endMonotonicTime" (.big t1)
              (id (stampStart t0 c)))) k = c k := by
          rw [setKey_other "error" k _ _ hk5]
          exact hcaller c
        exact ⟨setKey_other "startMonotonicTime" k _ _ hk1, hval,
          fun ec hec => by cases hec; exact hval⟩
  · intro c2 k2 h1
    exact setKey_other "startMonotonicTime" k2 _ _ h1
  · intro c2 k2 h1 h2
    simp only [stampCompletion]
    cases h : (setKey "endMonotonicTime" (JSVal.big t1) c2) "startMonotonicTime" with
    | none => exact setKey_other "endMonotonicTime" k2 _ _ h1
    | some w =>
        cases w with
        | big s =>
            dsimp only
            rw [setKey_other "duration" k2 _ _ h2]
            exact setKey_other "endMonotonicTime" k2 _ _ h1
        | val w => exact setKey_other "endMonotonicTime" k2 _ _ h1
        | tyErr => exact setKey_other "endMonotonicTime" k2 _ _ h1

theorem traceSync_additive_merge_witness :
    ("id" ∉ reservedKeys) ∧
    (((traceSync (V := Nat) (T := Nat) (A := Nat) 0 1 (fun _ _ => Except.ok 7)
        (some (setKey "id" (.val 1) emptyCtx)) 0 [] id).startCtx "id"
          = (setKey "id" (.val 1) (emptyCtx (V := Nat))) "id" ∧
      (traceSync (V := Nat) (T := Nat) (A := Nat) 0 1 (fun _ _ => Except.ok 7)
        (some (setKey "id" (.val 1) emptyCtx)) 0 [] id).endCtx "id"
          = (setKey "id" (.val 1) (emptyCtx (V := Nat))) "id" ∧
      ∀ ec, (traceSync (V := Nat) (T := Nat) (A := Nat) 0 1 (fun _ _ => Except.ok 7)
        (some (setKey "id" (.val 1) emptyCtx)) 0 [] id).errorCtx = some ec →
          ec "id" = (setKey "id" (.val 1) (emptyCtx (V := Nat))) "id") ∧
    (∀ (c2 : Ctx Nat) (k2 : String), k2 ≠ "startMonotonicTime" →
      stampStart 0 c2 k2 = c2 k2) ∧
    (∀ (c2 : Ctx Nat) (k2 : String), k2 ≠ "endMonotonicTime" → k2 ≠ "duration" →
      (stampCompletion 1 c2).1 k2 = c2 k2)) :=
  ⟨by decide,
    traceSync_additive_merge 0 1 (fun _ _ => Except.ok 7)
      (setKey "id" (.val 1) emptyCtx) 0 [] "id" (by decide)⟩

/-- C6: for a successful run with a strictly increasing monotonic clock,
no error event fires and the end event has
`endMonotonicTime > startMonotonicTime`. -/
theorem traceSync_success_end_gt_start {V T A : Type} (t0 t1 : Int)
    (fn : T → List A → Except V V) (context : Option (Ctx V))
    (thisArg : T) (args : List A) (onStart : Ctx V → Ctx V) (v : V)
    (hs : PreservesStart onStart) (hclock : t0 < t1)
    (hfn : fn thisArg args = .ok v) :
    (traceSync t0 t1 fn context thisArg args onStart).errorCtx = none ∧
    ∃ s e, (traceSync t0 t1 fn context thisArg args onStart).endCtx
        "startMonotonicTime" = some (.big s) ∧
      (traceSync t0 t1 fn context thisArg args onStart).endCtx
        "endMonotonicTime" = some (.big e) ∧
      s < e := by
  rw [traceSync_ok_eq t0 t1 fn context thisArg args onStart hs v hfn]
  have h1 := hs (stampStart t0 (context.getD emptyCtx))
  refine ⟨rfl, t0, t1, ?_, by simp [setKey], hclock⟩
  dsimp only
  rw [setKey_other "result" "startMonotonicTime" _ _ (by decide),
    setKey_other "duration" "startMonotonicTime" _ _ (by decide),
    setKey_other "endMonotonicTime" "startMonotonicTime" _ _ (by decide), h1]
  exact setKey_same "startMonotonicTime" _ _

theorem traceSync_success_end_gt_start_witness :
    (traceSync (V := Nat) (T := Nat) (A := Nat) 0 1
      (fun _ _ => Except.ok 7) none 0 [] id).errorCtx = none ∧
    ∃ s e, (traceSync (V := Nat) (T := Nat) (A := Nat) 0 1
        (fun _ _ => Except.ok 7) none 0 [] id).endCtx
        "startMonotonicTime" = some (.big s) ∧
      (traceSync (V := Nat) (T := Nat) (A := Nat) 0 1
        (fun _ _ => Except.ok 7) none 0 [] id).endCtx
        "endMonotonicTime" = some (.big e) ∧
      s < e :=
  traceSync_success_end_gt_start 0 1 (fun _ _ => Except.ok 7) none 0 [] id 7
    (fun _ => rfl) (by decide) rfl

/-- C10: stale values stored under `endMonotonicTime` and `duration` in a
reused caller context are still exposed, unchanged, on the start event —
only `startMonotonicTime` is refreshed before the start phase — while the
end event (and the error event when one fires) observes them overwritten
with this invocation's freshly computed values. -/
theorem traceSync_stale_reserved_keys {V T A : Type} (t0 t1 : Int)
    (fn : T → List A → Except V V) (c : Ctx V)
    (thisArg : T) (args : List A) (x y : JSVal V)
    (hx : c "endMonotonicTime" = some x) (hy : c "duration" = some y) :
    (traceSync t0 t1 fn (some c) thisArg args id).startCtx "endMonotonicTime" = some x ∧
    (traceSync t0 t1 fn (some c) thisArg args id).startCtx "duration" = some y ∧
    (traceSync t0 t1 fn (some c) thisArg args id).startCtx "startMonotonicTime"
      = some (.big t0) ∧
    (traceSync t0 t1 fn (some c) thisArg args id).endCtx "endMonotonicTime"
      = some (.big t1) ∧
    (traceSync t0 t1 fn (some c) thisArg args id).endCtx "duration"
      = some (.big (t1 - t0)) ∧
    ∀ ec, (traceSync t0 t1 fn (some c) thisArg args id).errorCtx = some ec →
      ec "endMonotonicTime" = some (.big t1) ∧ ec "duration" = some (.big (t1 - t0)) := by
  cases hfn : fn thisArg args with
  | ok w =>
      rw [traceSync_ok_eq t0 t1 fn (some c) thisArg args id (fun _ => rfl) w hfn]
      exact ⟨by simp [stampStart, setKey, hx], by simp [stampStart, setKey, hy],
        by simp [stampStart, setKey], by simp [setKey], by simp [setKey], by simp⟩
  | error e =>
      rw [traceSync_error_eq t0 t1 fn (some c) thisArg args id (fun _ => rfl) e hfn]
      refine ⟨by simp [stampStart, setKey, hx], by simp [stampStart, setKey, hy],
        by simp [stampStart, setKey], by simp [setKey], by simp [setKey], ?_⟩
      intro ec hec
      cases hec
      exact ⟨by simp [setKey], by simp [setKey]⟩

theorem traceSync_stale_reserved_keys_witness :
    (traceSync (V := Nat) (T := Nat) (A := Nat) 0 1 (fun _ _ => Except.ok 7)
      (some (setKey "duration" (.big 98) (setKey "endMonotonicTime" (.big 99) emptyCtx)))
      0 [] id).startCtx "endMonotonicTime" = some (.big 99) ∧
    (traceSync (V := Nat) (T := Nat) (A := Nat) 0 1 (fun _ _ => Except.ok 7)
      (some (setKey "duration" (.big 98) (setKey "endMonotonicTime" (.big 99) emptyCtx)))
      0 [] id).startCtx "duration" = some (.big 98) ∧
    (traceSync (V := Nat) (T := Nat) (A := Nat) 0 1 (fun _ _ => Except.ok 7)
      (some (setKey "duration" (.big 98) (setKey "endMonotonicTime" (.big 99) emptyCtx)))
      0 [] id).startCtx "startMonotonicTime" = some (.big 0) ∧
    (traceSync (V := Nat) (T := Nat) (A := Nat) 0 1 (fun _ _ => Except.ok 7)
      (some (setKey "duration" (.big 98) (setKey "endMonotonicTime" (.big 99) emptyCtx)))
      0 [] id).endCtx "endMonotonicTime" = some (.big 1) ∧
    (traceSync (V := Nat) (T := Nat) (A := Nat) 0 1 (fun _ _ => Except.ok 7)
      (some (setKey "duration" (.big 98) (setKey "endMonotonicTime" (.big 99) emptyCtx)))
      0 [] id).endCtx "duration" = some (.big (1 - 0)) ∧
    ∀ ec, (traceSync (V := Nat) (T := Nat) (A := Nat) 0 1 (fun _ _ => Except.ok 7)
      (some (setKey "duration" (.big 98) (setKey "endMonotonicTime" (.big 99) emptyCtx)))
      0 [] id).errorCtx = some ec →
      ec "endMonotonicTime" = some (.big 1) ∧ ec "duration" = some (.big (1 - 0)) :=
  traceSync_stale_reserved_keys 0 1 (fun _ _ => Except.ok 7)
    (setKey "duration" (.big 98) (setKey "endMonotonicTime" (.big 99) emptyCtx))
    0 [] (.big 99) (.big 98) (by decide) (by decide)

/-- The members declared on the `TelemetryChannel` class in src/src/index.ts,
besides the constructor and the public field `tracedChannel`. The README's
TODO list confirms `tracePromise` and `traceCallback` are not yet added. -/
def telemetryChannelMethods : List String :=
  ["subscribe", "unsubscribe", "traceSync"]

/-- C7 counterexample: the class declares no `tracePromise` member, so the
wrapper does not provide all three tracing entry points. -/
theorem tracePromise_not_provided :
    ¬ ("tracePromise" ∈ telemetryChannelMethods ∧
       "traceCallback" ∈ telemetryChannelMethods) := by
  decide

/-- C7 (amended): the wrapper's public API provides `subscribe`,
`unsubscribe` and the direct-model entry point `traceSync` only;
`tracePromise` and `traceCallback` are not provided. -/
theorem telemetryChannel_entry_points :
    "traceSync" ∈ telemetryChannelMethods ∧
    "subscribe" ∈ telemetryChannelMethods ∧
    "unsubscribe" ∈ telemetryChannelMethods ∧
    "tracePromise" ∉ telemetryChannelMethods ∧
    "traceCallback" ∉ telemetryChannelMethods := by
  decide

/-- The construction-time error taxonomy: the bus rejecting the channel
name. -/
inductive ConstructionError where
  | invalidArgument
deriving DecidableEq

/-- The state built by the `TelemetryChannel` constructor: the stored name
(standing for the `tracingChannel(name)` bus instance bound to it). -/
structure TelemetryChannelModel where
  name : String
deriving DecidableEq

/-- `telemetryChannel(name)` / `new TelemetryChannel(name)`: stores `name`
and calls `tracingChannel(name)`. The bus's own validation of the name,
modelled abstractly as `busValid`, is the only thing that can fail; no
other effect is performed. -/
def telemetryChannel (busValid : String → Bool) (name : String) :
    Except ConstructionError TelemetryChannelModel :=
  if busValid name then .ok ⟨name⟩ else .error .invalidArgument

/-- C8: construction is pure and has no error conditions of its own — it
succeeds, binding the wrapper to the bus instance named `name`, exactly
when the bus accepts `name` as an identifier, and otherwise fails with
`InvalidArgument` per the bus's own validation. -/
theorem telemetryChannel_pure_construction (busValid : String → Bool)
    (name : String) :
    (busValid name = true → telemetryChannel busValid name = .ok ⟨name⟩) ∧
    (busValid name = false →
      telemetryChannel busValid name = .error .invalidArgument) := by
  constructor
  · intro h
    simp [telemetryChannel, h]
  · intro h
    simp [telemetryChannel, h]

theorem telemetryChannel_pure_construction_witness :
    telemetryChannel (fun s => !s.isEmpty) "my-channel" = .ok ⟨"my-channel"⟩ ∧
    telemetryChannel (fun s => !s.isEmpty) "" = .error .invalidArgument :=
  ⟨(telemetryChannel_pure_construction (fun s => !s.isEmpty) "my-channel").1 rfl,
    (telemetryChannel_pure_construction (fun s => !s.isEmpty) "").2 rfl⟩

/-- A subscriber set: one optional handler per phase of the bus
(`start`, `end`, `error`, `asyncStart`, `asyncEnd`; the `end` phase field
is spelled `endH` because `end` is reserved in Lean). -/
structure TracingChannelSubscribers (H : Type) where
  start : Option H
  endH : Option H
  error : Option H
  asyncStart : Option H
  asyncEnd : Option H

/-- The bus's per-phase handler registry. -/
structure BusRegistry (H : Type) where
  start : List H
  endH : List H
  error : List H
  asyncStart : List H
  asyncEnd : List H

/-- A single channel's `unsubscribe(handler)`: removes the first occurrence
of the handler and reports `true`, or reports `false` when the handler is
not registered; it never throws. -/
def channelUnsubscribe {H : Type} [DecidableEq H] (subs : List H) (h : H) :
    List H × Bool :=
  if h ∈ subs then (subs.erase h, true) else (subs, false)

/-- One phase of `TracingChannel.unsubscribe`: skipped (vacuously
successful) when the subscriber set supplies no handler for the phase. -/
def phaseUnsubscribe {H : Type} [DecidableEq H] (subs : List H)
    (s : Option H) : List H × Bool :=
  match s with
  | none => (subs, true)
  | some h => channelUnsubscribe subs h

/-- `TelemetryChannel.unsubscribe(subscribers)`: delegates to the bus's
`TracingChannel.unsubscribe`, which attempts every supplied handler and
returns `true` only if each per-handler removal succeeded. It is a total
function into `Bool`: missing handlers yield `false`, never an
exception. -/
def unsubscribe {H : Type} [DecidableEq H] (r : BusRegistry H)
    (s : TracingChannelSubscribers H) : BusRegistry H × Bool :=
  let ps := phaseUnsubscribe r.start s.start
  let pe := phaseUnsubscribe r.endH s.endH
  let pr := phaseUnsubscribe r.error s.error
  let pas := phaseUnsubscribe r.asyncStart s.asyncStart
  let pae := phaseUnsubscribe r.asyncEnd s.asyncEnd
  (⟨ps.1, pe.1, pr.1, pas.1, pae.1⟩, ps.2 && pe.2 && pr.2 && pas.2 && pae.2)

theorem phaseUnsubscribe_true_iff {H : Type} [DecidableEq H] (subs : List H)
    (s : Option H) :
    (phaseUnsubscribe subs s).2 = true ↔ ∀ h, s = some h → h ∈ subs := by
  cases s with
  | none => simp [phaseUnsubscribe]
  | some h =>
      simp only [phaseUnsubscribe, channelUnsubscribe]
      by_cases hm : h ∈ subs
      · simp [hm]
      · simp [hm]

/-- C9: `unsubscribe` returns `true` exactly when every supplied handler
was registered (and hence successfully removed), and `false` — as a return
value, not an exception, the function being total — when one or more
supplied handlers were not registered. -/
theorem unsubscribe_true_iff_all_removed {H : Type} [DecidableEq H]
    (r : BusRegistry H) (s : TracingChannelSubscribers H) :
    (unsubscribe r s).2 = true ↔
      ((∀ h, s.start = some h → h ∈ r.start) ∧
       (∀ h, s.endH = some h → h ∈ r.endH) ∧
       (∀ h, s.error = some h → h ∈ r.error) ∧
       (∀ h, s.asyncStart = some h → h ∈ r.asyncStart) ∧
       (∀ h, s.asyncEnd = some h → h ∈ r.asyncEnd)) := by
  simp [unsubscribe, Bool.and_eq_true, phaseUnsubscribe_true_iff, and_assoc]

theorem unsubscribe_true_iff_all_removed_witness :
    ((unsubscribe (H := Nat) ⟨[1], [2], [], [], []⟩
        ⟨some 1, some 2, none, none, none⟩).2 = true ↔
      ((∀ h, (some 1 : Option Nat) = some h → h ∈ [1]) ∧
       (∀ h, (some 2 : Option Nat) = some h → h ∈ [2]) ∧
       (∀ h, (none : Option Nat) = some h → h ∈ ([] : List Nat)) ∧
       (∀ h, (none : Option Nat) = some h → h ∈ ([] : List Nat)) ∧
       (∀ h, (none : Option Nat) = some h → h ∈ ([] : List Nat)))) :=
  unsubscribe_true_iff_all_removed ⟨[1], [2], [], [], []⟩
    ⟨some 1, some 2, none, none, none⟩
